import Mathlib

/-!
Verification development for the OptimumBus route-optimization engine and
its React frontend.

The backend optimization core (stop clustering, intra-cluster routing,
travel-time estimation, orchestration) is specified in the project
documentation; its Python sources are not part of this tree, so those
components are modelled here directly from the specification text.
The frontend components (`OptimizationControls.tsx`, `BusStopForm.tsx`,
`App.tsx`) are embedded from their TypeScript sources.

Real-number coordinate arithmetic is embedded over `ℚ`; the great-circle
(haversine) distance, which is transcendental, is treated as an explicit
function parameter `dist` wherever a component consumes it, so every
theorem quantifies over the distance oracle.
-/

namespace OptimumBus

/-- A latitude/longitude coordinate pair (spec §3: Stop coordinate). -/
structure Coord where
  lat : ℚ
  lng : ℚ
deriving DecidableEq, Repr

/-- Modelled from the spec: a Stop record (§3) — opaque unique id,
coordinate, and a demand weight that is carried through but not consumed
by clustering or ordering. -/
structure Stop where
  id : ℕ
  coord : Coord
  demand_weight : ℚ
deriving DecidableEq, Repr

/-! ### Index of the minimum of a list of costs (shared helper)

Ties are broken toward the first-encountered (lowest) index, matching the
deterministic tie-break rules of spec §4.2 and §4.4. -/

/-- Scan `l` keeping the best (strictly smaller) value seen so far;
`cur` is the index of the head of `l` in the original list. -/
def argminGo : List ℚ → ℚ → ℕ → ℕ → ℕ
  | [], _, bestIdx, _ => bestIdx
  | x :: xs, bestVal, bestIdx, cur =>
    if x < bestVal then argminGo xs x cur (cur + 1)
    else argminGo xs bestVal bestIdx (cur + 1)

/-- Index of the minimum value of a list (`0` on the empty list);
first occurrence wins on ties. -/
def argminIdx : List ℚ → ℕ
  | [] => 0
  | x :: xs => argminGo xs x 0 1

theorem argminGo_lt (l : List ℚ) : ∀ (bestVal : ℚ) (bestIdx cur : ℕ),
    bestIdx < cur → argminGo l bestVal bestIdx cur < cur + l.length := by
  induction l with
  | nil => intro bestVal bestIdx cur h; simpa [argminGo] using h
  | cons x xs ih =>
    intro bestVal bestIdx cur h
    simp only [argminGo]
    by_cases hx : x < bestVal
    · simp only [hx, if_true]
      have := ih x cur (cur + 1) (Nat.lt_succ_self cur)
      simpa [Nat.add_comm, Nat.add_left_comm, List.length_cons] using
        Nat.lt_of_lt_of_le this (by omega)
    · simp only [hx, if_false]
      have := ih bestVal bestIdx (cur + 1) (Nat.lt_succ_of_lt h)
      exact Nat.lt_of_lt_of_le this (by simp [List.length_cons]; omega)

theorem argminIdx_lt_length (l : List ℚ) (h : l ≠ []) : argminIdx l < l.length := by
  cases l with
  | nil => exact absurd rfl h
  | cons x xs =>
    have := argminGo_lt xs x 0 1 Nat.zero_lt_one
    simpa [argminIdx, List.length_cons, Nat.add_comm] using this

/-! ### Stop Clusterer (spec §4.4)

Modelled from the spec: Lloyd's-algorithm k-means over the 2D
(latitude, longitude) feature space, demand weight excluded.  The spec
allows any documented deterministic centroid seeding; we seed with the
coordinates of the first `k` input stops.  Assignment uses squared
Euclidean distance in coordinate space (the same argmin as Euclidean
distance).  Empty clusters keep their previous centroid when centroids
are recomputed.  Iteration stops at assignment stability or at a cap of
100 rounds (spec §4.4 termination requirement). -/

/-- Squared Euclidean distance in (lat, lng) feature space. -/
def sqDist (a b : Coord) : ℚ :=
  (a.lat - b.lat) ^ 2 + (a.lng - b.lng) ^ 2

/-- Index of the centroid nearest to stop `s` (ties to the lowest index). -/
def assign (centroids : List Coord) (s : Stop) : ℕ :=
  argminIdx (centroids.map (fun c => sqDist c s.coord))

/-- Mean coordinate of a list of coordinates. -/
def meanCoord (cs : List Coord) : Coord :=
  ⟨(cs.map Coord.lat).sum / (cs.length : ℚ), (cs.map Coord.lng).sum / (cs.length : ℚ)⟩

/-- One Lloyd round: each centroid becomes the mean of the stops currently
assigned to it (or stays put if no stop is assigned to it). -/
def recompute (stops : List Stop) (centroids : List Coord) : List Coord :=
  centroids.enum.map (fun p =>
    let assigned := stops.filter (fun s => assign centroids s == p.1)
    if assigned.isEmpty then p.2 else meanCoord (assigned.map Stop.coord))

/-- Iterate Lloyd rounds until the stop assignment is stable or the
fuel (iteration cap) runs out; returns the final centroids. -/
def lloydLoop (stops : List Stop) : ℕ → List Coord → List Coord
  | 0, centroids => centroids
  | fuel + 1, centroids =>
    let c' := recompute stops centroids
    if stops.map (assign c') = stops.map (assign centroids) then centroids
    else lloydLoop stops fuel c'

/-- Final k-means centroids: seed with the first `k` stop coordinates,
then run Lloyd rounds with an iteration cap of 100. -/
def kmeansCentroids (stops : List Stop) (k : ℕ) : List Coord :=
  lloydLoop stops 100 ((stops.take k).map Stop.coord)

/-- Modelled from the spec: the Stop Clusterer (§4.4).  Partitions the
input stops by bus index: cluster `i` is the list of stops whose nearest
final centroid is centroid `i`. -/
def cluster (stops : List Stop) (k : ℕ) : List (List Stop) :=
  let c := kmeansCentroids stops k
  (List.range c.length).map (fun i => stops.filter (fun s => assign c s == i))

theorem recompute_length (stops : List Stop) (centroids : List Coord) :
    (recompute stops centroids).length = centroids.length := by
  simp [recompute, List.enum_length]

theorem lloydLoop_length (stops : List Stop) :
    ∀ (fuel : ℕ) (centroids : List Coord),
      (lloydLoop stops fuel centroids).length = centroids.length := by
  intro fuel
  induction fuel with
  | zero => intro centroids; rfl
  | succ n ih =>
    intro centroids
    simp only [lloydLoop]
    by_cases h : stops.map (assign (recompute stops centroids)) = stops.map (assign centroids)
    · simp [h]
    · simp [h, ih, recompute_length]

theorem kmeansCentroids_length (stops : List Stop) (k : ℕ) :
    (kmeansCentroids stops k).length = min k stops.length := by
  simp [kmeansCentroids, lloydLoop_length, List.length_take]

theorem cluster_length (stops : List Stop) (k : ℕ) :
    (cluster stops k).length = min k stops.length := by
  simp [cluster, kmeansCentroids_length]

theorem assign_lt (centroids : List Coord) (s : Stop) (h : centroids ≠ []) :
    assign centroids s < centroids.length := by
  have hne : centroids.map (fun c => sqDist c s.coord) ≠ [] := by
    simpa using h
  have := argminIdx_lt_length _ hne
  simpa [assign] using this

/-! ### Partition lemmas for the Clusterer -/

theorem count_filter_eq {α : Type} [DecidableEq α] (p : α → Bool) (a : α) (l : List α) :
    (l.filter p).count a = if p a then l.count a else 0 := by
  induction l with
  | nil => simp
  | cons b t ih =>
    by_cases hb : b = a
    · subst hb
      by_cases hp : p b
      · simp [List.filter_cons, hp, List.count_cons, ih]
      · simp [List.filter_cons, hp, List.count_cons, ih]
    · by_cases hp : p b
      · simp [List.filter_cons, hp, List.count_cons, hb, ih]
      · simp [List.filter_cons, hp, List.count_cons, hb, ih]

theorem sum_range_indicator (m j : ℕ) : ∀ n : ℕ, j < n →
    ((List.range n).map (fun i => if j = i then m else 0)).sum = m := by
  intro n
  induction n with
  | zero => intro h; omega
  | succ n ih =>
    intro h
    rw [List.range_succ]
    by_cases hj : j = n
    · subst hj
      rw [List.map_append, List.sum_append]
      have hz : ((List.range j).map (fun i => if j = i then m else 0)).sum = 0 := by
        apply List.sum_eq_zero
        intro x hx
        rcases List.mem_map.mp hx with ⟨i, hi, rfl⟩
        have hij : i < j := List.mem_range.mp hi
        simp [Nat.ne_of_gt hij]
      simp [hz]
    · have hlt : j < n := by omega
      simp [List.map_append, List.sum_append, ih hlt, hj]

theorem cluster_flatten_count (stops : List Stop) (k : ℕ) (a : Stop)
    (hne : kmeansCentroids stops k ≠ []) :
    (cluster stops k).flatten.count a = stops.count a := by
  simp only [cluster, List.count_flatten, List.map_map]
  have h2 : (List.count a ∘ fun i => stops.filter (fun s => assign (kmeansCentroids stops k) s == i))
      = fun i => if assign (kmeansCentroids stops k) a = i then stops.count a else 0 := by
    funext i
    simp only [Function.comp_apply]
    rw [count_filter_eq]
    by_cases h : assign (kmeansCentroids stops k) a = i <;> simp [h]
  rw [h2]
  exact sum_range_indicator (stops.count a) (assign (kmeansCentroids stops k) a)
    (kmeansCentroids stops k).length (assign_lt _ a hne)

theorem cluster_flatten_perm (stops : List Stop) (k : ℕ)
    (hne : kmeansCentroids stops k ≠ []) :
    List.Perm (cluster stops k).flatten stops := by
  rw [List.perm_iff_count]
  intro a
  exact cluster_flatten_count stops k a hne

theorem cluster_disjoint (stops : List Stop) (k : ℕ) :
    (cluster stops k).Pairwise (fun c₁ c₂ => ∀ s, s ∈ c₁ → s ∉ c₂) := by
  rw [cluster, List.pairwise_map]
  have := List.pairwise_lt_range (kmeansCentroids stops k).length
  refine this.imp ?_
  intro i j hij s hsi hsj
  have h1 := (List.mem_filter.mp hsi).2
  have h2 := (List.mem_filter.mp hsj).2
  have e1 : assign (kmeansCentroids stops k) s = i := by simpa using h1
  have e2 : assign (kmeansCentroids stops k) s = j := by simpa using h2
  omega

/-! ### Intra-Cluster Router (spec §4.5)

Modelled from the spec: a single greedy nearest-neighbor pass.  The start
stop is the first by input order (the spec's documented deterministic
choice); each step selects the unvisited stop minimizing the estimator
cost from the current position, breaking ties by lowest stop id. -/

/-- `pickMin cost best l` returns the element of `best :: l` with minimal
cost, ties broken by lowest stop id and then by first occurrence. -/
def pickMin (cost : Stop → ℚ) : Stop → List Stop → Stop
  | best, [] => best
  | best, x :: xs =>
    if cost x < cost best ∨ (cost x = cost best ∧ x.id < best.id) then pickMin cost x xs
    else pickMin cost best xs

/-- Greedy nearest-neighbor loop: repeatedly pick the cheapest unvisited
stop from the current position and append it.  `fuel` bounds the number
of picks (instantiated to the list length). -/
def orderLoop (est : Coord → Coord → ℚ) : Coord → ℕ → List Stop → List Stop
  | _, 0, _ => []
  | _, _ + 1, [] => []
  | cur, fuel + 1, x :: xs =>
    let chosen := pickMin (fun s => est cur s.coord) x xs
    chosen :: orderLoop est chosen.coord fuel ((x :: xs).erase chosen)

/-- Modelled from the spec: the Intra-Cluster Router (§4.5).  Starts from
the first stop of the cluster and greedily appends the nearest unvisited
stop as measured by the supplied travel-time estimator. -/
def order (est : Coord → Coord → ℚ) : List Stop → List Stop
  | [] => []
  | x :: xs => x :: orderLoop est x.coord xs.length xs

theorem pickMin_mem (cost : Stop → ℚ) : ∀ (l : List Stop) (best : Stop),
    pickMin cost best l = best ∨ pickMin cost best l ∈ l := by
  intro l
  induction l with
  | nil => intro best; exact Or.inl rfl
  | cons x xs ih =>
    intro best
    simp only [pickMin]
    by_cases h : cost x < cost best ∨ (cost x = cost best ∧ x.id < best.id)
    · simp only [h, if_true]
      rcases ih x with h1 | h1
      · exact Or.inr (by rw [h1]; exact List.mem_cons_self x xs)
      · exact Or.inr (List.mem_cons_of_mem x h1)
    · simp only [h, if_false]
      rcases ih best with h1 | h1
      · exact Or.inl h1
      · exact Or.inr (List.mem_cons_of_mem x h1)

theorem pickMin_mem_cons (cost : Stop → ℚ) (x : Stop) (xs : List Stop) :
    pickMin cost x xs ∈ x :: xs := by
  rcases pickMin_mem cost xs x with h | h
  · rw [h]; exact List.mem_cons_self x xs
  · exact List.mem_cons_of_mem x h

theorem orderLoop_perm (est : Coord → Coord → ℚ) :
    ∀ (fuel : ℕ) (l : List Stop) (cur : Coord), l.length ≤ fuel →
      List.Perm (orderLoop est cur fuel l) l := by
  intro fuel
  induction fuel with
  | zero =>
    intro l cur h
    have : l = [] := List.length_eq_zero.mp (Nat.le_zero.mp h)
    subst this
    exact List.Perm.refl _
  | succ n ih =>
    intro l cur h
    cases l with
    | nil => exact List.Perm.refl _
    | cons x xs =>
      simp only [orderLoop]
      have hmem := pickMin_mem_cons (fun s => est cur s.coord) x xs
      have hperm : List.Perm (x :: xs)
          (pickMin (fun s => est cur s.coord) x xs ::
            (x :: xs).erase (pickMin (fun s => est cur s.coord) x xs)) :=
        List.perm_cons_erase hmem
      have hlen : ((x :: xs).erase (pickMin (fun s => est cur s.coord) x xs)).length ≤ n := by
        rw [List.length_erase_of_mem hmem]
        simp only [List.length_cons] at h ⊢
        omega
      have := ih ((x :: xs).erase (pickMin (fun s => est cur s.coord) x xs))
        (pickMin (fun s => est cur s.coord) x xs).coord hlen
      exact ((this.cons _).trans hperm.symm)

theorem order_perm (est : Coord → Coord → ℚ) (stops : List Stop) :
    List.Perm (order est stops) stops := by
  cases stops with
  | nil => exact List.Perm.refl _
  | cons x xs =>
    simp only [order]
    exact (orderLoop_perm est xs.length xs x.coord (Nat.le_refl _)).cons x

/-! ### Road graph, Nearest-Node Snapper, Dijkstra, Travel-Time Estimator
(spec §3, §4.2, §4.3)

Modelled from the spec: the RoadGraph data model, the linear-scan nearest
node snapper (EmptyGraphError rendered as `none`), Dijkstra
shortest-path search (settle nodes in increasing tentative-cost order),
and the three-tier fallback estimator. -/

/-- A road-graph node: id and coordinate (spec §3 RoadGraph). -/
structure Node where
  id : ℕ
  coord : Coord
deriving DecidableEq, Repr

/-- A weighted directed road segment (spec §3 RoadGraph). -/
structure Edge where
  src : ℕ
  dst : ℕ
  weight : ℚ
deriving DecidableEq, Repr

/-- Modelled from the spec: a RoadGraph snapshot (§3). -/
structure RoadGraph where
  nodes : List Node
  edges : List Edge
deriving DecidableEq, Repr

/-- Linear scan for the node nearest to `p`; ties keep the
first-encountered node (spec §4.2). -/
def nearestNode (dist : Coord → Coord → ℚ) (p : Coord) : Node → List Node → Node
  | best, [] => best
  | best, x :: xs =>
    if dist x.coord p < dist best.coord p then nearestNode dist p x xs
    else nearestNode dist p best xs

/-- Modelled from the spec: the Nearest-Node Snapper (§4.2).  Returns the
id of the node minimizing distance to `p`; `none` models
`EmptyGraphError` on a graph with zero nodes. -/
def snap (dist : Coord → Coord → ℚ) (g : RoadGraph) (p : Coord) : Option ℕ :=
  match g.nodes with
  | [] => none
  | n :: ns => some (nearestNode dist p n ns).id

/-- Outgoing weighted edges of node `u`. -/
def neighbors (g : RoadGraph) (u : ℕ) : List (ℕ × ℚ) :=
  (g.edges.filter (fun e => e.src == u)).map (fun e => (e.dst, e.weight))

/-- The frontier entry with minimal tentative cost (first wins on ties). -/
def pickMinPair : (ℕ × ℚ) → List (ℕ × ℚ) → (ℕ × ℚ)
  | best, [] => best
  | best, x :: xs => if x.2 < best.2 then pickMinPair x xs else pickMinPair best xs

/-- Dijkstra main loop: settle the unvisited frontier node of least
tentative cost, stop when the target is settled, relax its outgoing
edges otherwise.  Returns `none` when the target is unreachable. -/
def dijkstraLoop (g : RoadGraph) (target : ℕ) : ℕ → List (ℕ × ℚ) → List ℕ → Option ℚ
  | 0, _, _ => none
  | fuel + 1, frontier, visited =>
    match frontier.filter (fun p => !visited.contains p.1) with
    | [] => none
    | x :: xs =>
      let u := pickMinPair x xs
      if u.1 = target then some u.2
      else
        dijkstraLoop g target fuel
          ((x :: xs).filter (fun p => p.1 != u.1) ++
            (neighbors g u.1).map (fun vw => (vw.1, u.2 + vw.2)))
          (u.1 :: visited)

/-- Modelled from the spec: nonnegative-weight shortest-path cost between
two node ids (§4.3 step 3), `none` when no path exists. -/
def shortestPathCost (g : RoadGraph) (src target : ℕ) : Option ℚ :=
  dijkstraLoop g target (g.nodes.length + 1) [(src, 0)] []

/-- Modelled from the spec: the Travel-Time Estimator (§4.3) with its
three-tier fallback: absent graph → straight-line distance; failed snap
(empty graph) → straight-line distance; no path → straight-line
distance; otherwise the shortest-path cost. -/
def estimate (dist : Coord → Coord → ℚ) (g? : Option RoadGraph) (a b : Coord) : ℚ :=
  match g? with
  | none => dist a b
  | some g =>
    match snap dist g a, snap dist g b with
    | some na, some nb =>
      match shortestPathCost g na nb with
      | some c => c
      | none => dist a b
    | _, _ => dist a b

/-! ### Optimization Orchestrator (spec §4.6, §7)

Modelled from the spec: input validation (EmptyInputError when zero
stops, InvalidBusCountError when the bus count is nonpositive or exceeds
the number of stops — with the empty-input check taking precedence, per
Scenario C: "empty stop list fails with EmptyInputError regardless of
num_buses"), then cluster → per-cluster ordering → Route assembly with
bus indices assigned by cluster discovery order. -/

/-- A produced bus route (spec §3; `Route` in
`frontend/src/types/index.ts`): bus index, ordered stop ids, ordered
coordinates. -/
structure Route where
  bus_index : ℕ
  stop_ids : List ℕ
  coordinates : List Coord
deriving DecidableEq, Repr

/-- The error taxonomy of spec §7. -/
inductive OptError where
  | invalidBusCount
  | emptyInput
deriving DecidableEq, Repr

/-- Pair each element with its index, starting at `i`. -/
def withIdx {α : Type} : ℕ → List α → List (ℕ × α)
  | _, [] => []
  | i, x :: xs => (i, x) :: withIdx (i + 1) xs

theorem withIdx_length {α : Type} : ∀ (i : ℕ) (l : List α), (withIdx i l).length = l.length := by
  intro i l
  induction l generalizing i with
  | nil => rfl
  | cons x xs ih => simp [withIdx, ih]

theorem withIdx_mem_snd {α : Type} : ∀ (i : ℕ) (l : List α) (p : ℕ × α),
    p ∈ withIdx i l → p.2 ∈ l := by
  intro i l
  induction l generalizing i with
  | nil => intro p h; simp [withIdx] at h
  | cons x xs ih =>
    intro p h
    simp only [withIdx, List.mem_cons] at h
    rcases h with h | h
    · subst h; exact List.mem_cons_self x xs
    · exact List.mem_cons_of_mem x (ih (i + 1) p h)

/-- Modelled from the spec: the Optimization Orchestrator (§4.6).
Validates, clusters into `num_buses` groups, orders each nonempty
cluster with the estimator, and assembles routes tagged by discovery
order. -/
def optimize (dist : Coord → Coord → ℚ) (stops : List Stop) (num_buses : ℤ)
    (g? : Option RoadGraph) : Except OptError (List Route) :=
  if stops.isEmpty then .error .emptyInput
  else if num_buses ≤ 0 ∨ (stops.length : ℤ) < num_buses then .error .invalidBusCount
  else
    let cs := (cluster stops num_buses.toNat).filter (fun c => !c.isEmpty)
    let orderedRoutes := (withIdx 0 cs).map (fun p =>
      let ordered := order (estimate dist g?) p.2
      Route.mk p.1 (ordered.map Stop.id) (ordered.map Stop.coord))
    .ok orderedRoutes

/-- The route list optimize produces on valid input (the `.ok` payload). -/
def optimizeRoutes (dist : Coord → Coord → ℚ) (stops : List Stop) (num_buses : ℤ)
    (g? : Option RoadGraph) : List Route :=
  (withIdx 0 ((cluster stops num_buses.toNat).filter (fun c => !c.isEmpty))).map (fun p =>
    let ordered := order (estimate dist g?) p.2
    Route.mk p.1 (ordered.map Stop.id) (ordered.map Stop.coord))

theorem optimize_ok_of_valid (dist : Coord → Coord → ℚ) (stops : List Stop) (num_buses : ℤ)
    (g? : Option RoadGraph) (h1 : stops ≠ []) (h2 : 0 < num_buses)
    (h3 : num_buses ≤ (stops.length : ℤ)) :
    optimize dist stops num_buses g? = .ok (optimizeRoutes dist stops num_buses g?) := by
  have he : stops.isEmpty = false := by
    cases stops with
    | nil => exact absurd rfl h1
    | cons x xs => rfl
  have hv : ¬(num_buses ≤ 0 ∨ (stops.length : ℤ) < num_buses) := by
    push_neg
    exact ⟨h2, h3⟩
  simp [optimize, he, hv, optimizeRoutes]

/-! ### Frontend: OptimizationControls.tsx

Embedded from `frontend/src/components/OptimizationControls.tsx`.
`numBuses` is the component's numeric state (an arbitrary integer: the
input's `min`/`max` attributes do not constrain the stored state);
`numStops` is `busStops.length`. -/

/-- `handleSubmit` (OptimizationControls.tsx lines 16–21): invokes
`onOptimize(numBuses)` exactly when `numBuses > 0 && numBuses <= numStops`;
`some nb` models the call `onOptimize(nb)`, `none` models no call. -/
def handleSubmit (numBuses : ℤ) (numStops : ℕ) : Option ℤ :=
  if 0 < numBuses ∧ numBuses ≤ (numStops : ℤ) then some numBuses else none

/-- The submit button's `disabled` expression
(OptimizationControls.tsx line 44):
`isLoading || numBuses > numStops || numStops === 0`. -/
def submitDisabled (isLoading : Bool) (numBuses : ℤ) (numStops : ℕ) : Bool :=
  isLoading || decide ((numStops : ℤ) < numBuses) || decide (numStops = 0)

/-! ### Frontend: BusStopForm.tsx

Embedded from `frontend/src/components/BusStopForm.tsx`.  JavaScript
numbers are modelled by `JsNum`: NaN, the two infinities, and finite
values (rounding plays no role in the embedded logic, so finite values
carry a `ℚ`).  `parseFloat` of the raw input string is supplied as an
oracle argument. -/

/-- A JavaScript number: NaN, ±Infinity, or a finite value. -/
inductive JsNum where
  | nan
  | inf
  | negInf
  | fin (q : ℚ)
deriving DecidableEq, Repr

/-- JavaScript truthiness of a number: `NaN` and `0` are falsy,
everything else (including the infinities) is truthy. -/
def JsNum.truthy : JsNum → Bool
  | .nan => false
  | .fin q => q != 0
  | _ => true

/-- Whether a `JsNum` is NaN. -/
def JsNum.isNaN : JsNum → Bool
  | .nan => true
  | _ => false

/-- Whether a `JsNum` is a finite number. -/
def JsNum.isFinite : JsNum → Bool
  | .fin _ => true
  | _ => false

/-- The numeric-field transform of `handleChange`
(BusStopForm.tsx lines 24–32): `parseFloat(value) || 0`, applied to the
`latitude`, `longitude` and `demand_weight` fields. -/
def storeNumeric (r : JsNum) : JsNum :=
  if r.truthy then r else .fin 0

/-- A form field name of BusStopForm. -/
inductive Field where
  | name
  | description
  | latitude
  | longitude
  | demand_weight
deriving DecidableEq, Repr

/-- The `formData` state of BusStopForm. -/
structure FormData where
  name : String
  description : String
  latitude : JsNum
  longitude : JsNum
  demand_weight : JsNum
deriving DecidableEq, Repr

/-- `handleChange` (BusStopForm.tsx lines 24–32): numeric fields store
`parseFloat(value) || 0` (`parsed` is the oracle result of
`parseFloat(value)`); the text fields store the raw string. -/
def handleChange (prev : FormData) (f : Field) (value : String) (parsed : JsNum) : FormData :=
  match f with
  | .name => { prev with name := value }
  | .description => { prev with description := value }
  | .latitude => { prev with latitude := storeNumeric parsed }
  | .longitude => { prev with longitude := storeNumeric parsed }
  | .demand_weight => { prev with demand_weight := storeNumeric parsed }

/-! ### Frontend: App.tsx

Embedded from `frontend/src/App.tsx` (state and `handleDeleteStop`,
lines 133–149). -/

/-- A frontend bus stop record (`BusStop` in
`frontend/src/types/index.ts`); ids are strings (UUIDs). -/
structure BusStopFE where
  id : String
  name : String
  description : String
  latitude : ℚ
  longitude : ℚ
  demand_weight : ℚ
deriving DecidableEq, Repr

/-- A frontend route (`Route` in `frontend/src/types/index.ts`). -/
structure RouteFE where
  bus_index : ℕ
  stop_ids : List String
  coordinates : List Coord
deriving DecidableEq, Repr

/-- The App component state touched by `handleDeleteStop`. -/
structure AppState where
  busStops : List BusStopFE
  routes : List RouteFE
  isLoading : Bool
deriving DecidableEq, Repr

/-- The successful completion of `handleDeleteStop` (App.tsx lines
133–149): after the confirmed, successful DELETE call,
`setBusStops(prev => prev.filter(stop => stop.id !== id))`,
`setRoutes([])`, and `setIsLoading(false)` in the `finally` block. -/
def handleDeleteStop (s : AppState) (id : String) : AppState :=
  { s with
    busStops := s.busStops.filter (fun stop => stop.id != id)
    routes := []
    isLoading := false }

/-! ## Claim theorems -/

/-- C1: for every input sequence of stops and every positive `k` with
`k ≤` number of stops, the clusters returned by the Stop Clusterer are
pairwise disjoint and their union is exactly the input stop set: the
flattened clusters are a permutation of the input (at the stop level and
at the stop-id level, so every input stop id appears exactly once across
the clusters and no cluster holds an id absent from the input). -/
theorem C1_cluster_partition (stops : List Stop) (k : ℕ)
    (hk : 0 < k) (hkn : k ≤ stops.length) :
    List.Perm (cluster stops k).flatten stops ∧
    List.Perm ((cluster stops k).map (List.map Stop.id)).flatten (stops.map Stop.id) ∧
    (cluster stops k).Pairwise (fun c₁ c₂ => ∀ s, s ∈ c₁ → s ∉ c₂) := by
  have hne : kmeansCentroids stops k ≠ [] := by
    intro h
    have hl := kmeansCentroids_length stops k
    rw [h] at hl
    simp only [List.length_nil] at hl
    omega
  refine ⟨cluster_flatten_perm stops k hne, ?_, cluster_disjoint stops k⟩
  have h1 := (cluster_flatten_perm stops k hne).map Stop.id
  rw [← List.map_flatten]
  exact h1

/-- C1 witness: the partition property at a concrete two-stop input with
`k = 2`. -/
theorem C1_cluster_partition_witness :
    List.Perm (cluster [⟨1, ⟨0, 0⟩, 1⟩, ⟨2, ⟨0, 1⟩, 1⟩] 2).flatten
      [⟨1, ⟨0, 0⟩, 1⟩, ⟨2, ⟨0, 1⟩, 1⟩] :=
  (C1_cluster_partition [⟨1, ⟨0, 0⟩, 1⟩, ⟨2, ⟨0, 1⟩, 1⟩] 2 (by decide) (by decide)).1

/-- C2: for every nonempty cluster of stops and every travel-time
estimator, the Intra-Cluster Router's output is a permutation of its
input: same length and the same multiset of stops (hence of stop ids),
with no stop dropped or duplicated. -/
theorem C2_order_permutation (est : Coord → Coord → ℚ) (stops : List Stop)
    (_h : stops ≠ []) :
    List.Perm (order est stops) stops ∧
    (order est stops).length = stops.length ∧
    List.Perm ((order est stops).map Stop.id) (stops.map Stop.id) :=
  ⟨order_perm est stops, (order_perm est stops).length_eq, (order_perm est stops).map Stop.id⟩

/-- C2 witness: the permutation property at a concrete two-stop cluster. -/
theorem C2_order_permutation_witness :
    List.Perm (order (fun _ _ => (0 : ℚ)) [⟨1, ⟨0, 0⟩, 1⟩, ⟨2, ⟨0, 1⟩, 1⟩])
      [⟨1, ⟨0, 0⟩, 1⟩, ⟨2, ⟨0, 1⟩, 1⟩] :=
  (C2_order_permutation (fun _ _ => 0) [⟨1, ⟨0, 0⟩, 1⟩, ⟨2, ⟨0, 1⟩, 1⟩] (by decide)).1

/-- C3: `optimize` fails with `EmptyInputError` exactly when zero stops
are supplied (for every `num_buses`, the empty-input check taking
precedence per spec Scenario C), fails with `InvalidBusCountError`
exactly when stops are nonempty and `num_buses ≤ 0` or
`num_buses >` number of stops, and in every failure case returns no
route list. -/
theorem C3_optimize_error_taxonomy (dist : Coord → Coord → ℚ) (stops : List Stop)
    (nb : ℤ) (g? : Option RoadGraph) :
    (optimize dist stops nb g? = .error .emptyInput ↔ stops = []) ∧
    (optimize dist stops nb g? = .error .invalidBusCount ↔
      stops ≠ [] ∧ (nb ≤ 0 ∨ (stops.length : ℤ) < nb)) ∧
    (∀ e, optimize dist stops nb g? = .error e →
      ∀ routes, optimize dist stops nb g? ≠ .ok routes) := by
  refine ⟨?_, ?_, ?_⟩
  · by_cases he : stops = []
    · subst he; simp [optimize]
    · have he' : stops.isEmpty = false := by
        cases stops with
        | nil => exact absurd rfl he
        | cons x xs => rfl
      by_cases hv : nb ≤ 0 ∨ (stops.length : ℤ) < nb
      · simp [optimize, he', hv, he]
      · simp [optimize, he', hv, he]
  · by_cases he : stops = []
    · subst he; simp [optimize]
    · have he' : stops.isEmpty = false := by
        cases stops with
        | nil => exact absurd rfl he
        | cons x xs => rfl
      by_cases hv : nb ≤ 0 ∨ (stops.length : ℤ) < nb
      · simp [optimize, he', hv, he]
      · simp [optimize, he', hv, he]
  · intro e he routes hok
    rw [he] at hok
    exact Except.noConfusion hok

/-- C3 witness: an empty stop list with `num_buses = 3` fails with
`EmptyInputError`. -/
theorem C3_optimize_error_taxonomy_witness :
    optimize (fun _ _ => (0 : ℚ)) ([] : List Stop) 3 none = .error .emptyInput :=
  (C3_optimize_error_taxonomy (fun _ _ => 0) [] 3 none).1.mpr rfl

/-- C4: the Travel-Time Estimator never propagates an error: when the
graph is absent, when the graph has zero nodes (the snapper's
`EmptyGraphError` case), or when both snaps succeed but no path exists
between the snapped nodes, `estimate` returns the straight-line distance
fallback value instead of failing. -/
theorem C4_estimate_never_fails (dist : Coord → Coord → ℚ) (g? : Option RoadGraph)
    (a b : Coord)
    (h : g? = none ∨ (∃ g, g? = some g ∧ g.nodes = []) ∨
      (∃ g na nb, g? = some g ∧ snap dist g a = some na ∧ snap dist g b = some nb ∧
        shortestPathCost g na nb = none)) :
    estimate dist g? a b = dist a b := by
  rcases h with h | ⟨g, hg, hn⟩ | ⟨g, na, nb, hg, ha, hb, hp⟩
  · subst h; rfl
  · subst hg
    simp [estimate, snap, hn]
  · subst hg
    simp [estimate, ha, hb, hp]

/-- C4 witness: with an absent graph the estimator returns the fallback
distance. -/
theorem C4_estimate_never_fails_witness :
    estimate (fun _ _ => (7 : ℚ)) none ⟨0, 0⟩ ⟨1, 1⟩ = 7 :=
  C4_estimate_never_fails (fun _ _ => 7) none ⟨0, 0⟩ ⟨1, 1⟩ (Or.inl rfl)

/-- C5: for every pair of coordinates and every straight-line distance
function, `estimate` with an absent graph returns exactly the distance
value, with no transformation applied to the fallback. -/
theorem C5_fallback_exact (dist : Coord → Coord → ℚ) (a b : Coord) :
    estimate dist none a b = dist a b := rfl

/-- C6: on every valid input `optimize` returns exactly one Route per
nonempty cluster, never a route with zero stops, and at most
`num_buses` routes (possibly fewer when clusters collapse); for a single
stop with `num_buses = 1` it returns exactly one route containing that
one stop. -/
theorem C6_route_shape (dist : Coord → Coord → ℚ) (stops : List Stop) (nb : ℤ)
    (g? : Option RoadGraph) (h1 : stops ≠ []) (h2 : 0 < nb)
    (h3 : nb ≤ (stops.length : ℤ)) :
    optimize dist stops nb g? = .ok (optimizeRoutes dist stops nb g?) ∧
    (optimizeRoutes dist stops nb g?).length
      = ((cluster stops nb.toNat).filter (fun c => !c.isEmpty)).length ∧
    ((optimizeRoutes dist stops nb g?).length : ℤ) ≤ nb ∧
    (∀ r ∈ optimizeRoutes dist stops nb g?, r.stop_ids ≠ []) ∧
    (∀ s : Stop, stops = [s] → nb = 1 →
      optimizeRoutes dist stops nb g? = [⟨0, [s.id], [s.coord]⟩]) := by
  have hlen : (optimizeRoutes dist stops nb g?).length
      = ((cluster stops nb.toNat).filter (fun c => !c.isEmpty)).length := by
    simp [optimizeRoutes, withIdx_length]
  refine ⟨optimize_ok_of_valid dist stops nb g? h1 h2 h3, hlen, ?_, ?_, ?_⟩
  · rw [hlen]
    have hf := ((cluster stops nb.toNat).length_filter_le (fun c => !c.isEmpty))
    have hc := cluster_length stops nb.toNat
    have hnn : (nb.toNat : ℤ) = nb := Int.toNat_of_nonneg (le_of_lt h2)
    omega
  · intro r hr
    simp only [optimizeRoutes, List.mem_map] at hr
    rcases hr with ⟨p, hp, rfl⟩
    have hmem := withIdx_mem_snd 0 _ p hp
    have hne : p.2 ≠ [] := by
      have := (List.mem_filter.mp hmem).2
      simpa [List.isEmpty_iff] using this
    have hlen2 : (order (estimate dist g?) p.2).length = p.2.length :=
      (order_perm (estimate dist g?) p.2).length_eq
    simp only [ne_eq, List.map_eq_nil_iff]
    intro hnil
    rw [hnil] at hlen2
    exact hne (List.length_eq_zero.mp hlen2.symm)
  · intro s hs hnb
    subst hs
    subst hnb
    rfl

/-- C6 witness: a single stop with `num_buses = 1` yields exactly one
route containing that stop. -/
theorem C6_route_shape_witness :
    optimize (fun _ _ => (0 : ℚ)) [⟨5, ⟨2, 3⟩, 1⟩] 1 none
      = .ok [⟨0, [5], [⟨2, 3⟩]⟩] :=
  (C6_route_shape (fun _ _ => 0) [⟨5, ⟨2, 3⟩, 1⟩] 1 none (by decide) (by decide)
    (by decide)).1

/-- C7: `optimize` is deterministic — identical stops, identical
`num_buses` and an identical (or identically absent) graph produce
identical route lists, with the same clustering and the same per-cluster
ordering in both runs. -/
theorem C7_optimize_deterministic (dist : Coord → Coord → ℚ)
    (stops₁ stops₂ : List Stop) (nb₁ nb₂ : ℤ) (g₁ g₂ : Option RoadGraph)
    (hs : stops₁ = stops₂) (hn : nb₁ = nb₂) (hg : g₁ = g₂) :
    optimize dist stops₁ nb₁ g₁ = optimize dist stops₂ nb₂ g₂ ∧
    cluster stops₁ nb₁.toNat = cluster stops₂ nb₂.toNat ∧
    (∀ c : List Stop, order (estimate dist g₁) c = order (estimate dist g₂) c) := by
  subst hs
  subst hn
  subst hg
  exact ⟨rfl, rfl, fun _ => rfl⟩

/-- C7 witness: two identical calls at a concrete input return the same
result. -/
theorem C7_optimize_deterministic_witness :
    optimize (fun _ _ => (0 : ℚ)) [⟨1, ⟨0, 0⟩, 1⟩] 1 none
      = optimize (fun _ _ => (0 : ℚ)) [⟨1, ⟨0, 0⟩, 1⟩] 1 none :=
  (C7_optimize_deterministic (fun _ _ => 0) [⟨1, ⟨0, 0⟩, 1⟩] [⟨1, ⟨0, 0⟩, 1⟩]
    1 1 none none rfl rfl rfl).1

/-- C8: in OptimizationControls, `onOptimize` is invoked iff
`numBuses > 0` and `numBuses ≤ numStops`; the submit button is disabled
whenever `numStops = 0` or `numBuses > numStops`; and any bus count the
guard lets through makes the backend `optimize` succeed (no
`InvalidBusCountError` / `EmptyInputError`) on a stop list of the
corresponding length. -/
theorem C8_controls_guard (isLoading : Bool) (numBuses : ℤ) (numStops : ℕ) :
    (handleSubmit numBuses numStops = some numBuses ↔
      0 < numBuses ∧ numBuses ≤ (numStops : ℤ)) ∧
    (numStops = 0 ∨ (numStops : ℤ) < numBuses →
      submitDisabled isLoading numBuses numStops = true) ∧
    (∀ nb, handleSubmit numBuses numStops = some nb →
      ∀ (dist : Coord → Coord → ℚ) (stops : List Stop) (g? : Option RoadGraph),
        stops.length = numStops →
        optimize dist stops nb g? = .ok (optimizeRoutes dist stops nb g?)) := by
  refine ⟨?_, ?_, ?_⟩
  · constructor
    · intro h
      by_contra hc
      simp [handleSubmit, hc] at h
    · intro h
      simp [handleSubmit, h]
  · intro h
    rcases h with h | h
    · simp [submitDisabled, h]
    · simp [submitDisabled, h]
  · intro nb hnb dist stops g? hlen
    have hcond : 0 < numBuses ∧ numBuses ≤ (numStops : ℤ) := by
      by_contra hc
      simp [handleSubmit, hc] at hnb
    have hb : nb = numBuses := by
      simp [handleSubmit, hcond] at hnb
      exact hnb.symm
    subst hb
    have hne : stops ≠ [] := by
      intro h0
      rw [h0] at hlen
      simp at hlen
      omega
    exact optimize_ok_of_valid dist stops nb g? hne hcond.1 (by rw [hlen]; exact hcond.2)

/-- C8 witness: with 2 stops and 2 buses the guard fires and the backend
call succeeds. -/
theorem C8_controls_guard_witness :
    optimize (fun _ _ => (0 : ℚ)) [⟨1, ⟨0, 0⟩, 1⟩, ⟨2, ⟨1, 1⟩, 1⟩] 2 none
      = .ok (optimizeRoutes (fun _ _ => (0 : ℚ)) [⟨1, ⟨0, 0⟩, 1⟩, ⟨2, ⟨1, 1⟩, 1⟩] 2 none) :=
  (C8_controls_guard false 2 2).2.2 2 (by decide) (fun _ _ => 0)
    [⟨1, ⟨0, 0⟩, 1⟩, ⟨2, ⟨1, 1⟩, 1⟩] none rfl

/-- C9 counterexample: the claim says the stored numeric form values are
always finite; but when `parseFloat` of the typed text yields `Infinity`
(e.g. the input "1e999", a valid floating-point string for a number
input), `parseFloat(value) || 0` stores `Infinity`, which is not finite. -/
theorem C9_handleChange_counterexample :
    (handleChange ⟨"", "", .fin 0, .fin 0, .fin 0⟩ .latitude "1e999" .inf).latitude
      = .inf ∧
    ((handleChange ⟨"", "", .fin 0, .fin 0, .fin 0⟩ .latitude "1e999" .inf).latitude).isFinite
      = false :=
  ⟨rfl, rfl⟩

/-- C9 (amended): for every change event on the latitude, longitude or
demand_weight fields, the stored value is `parseFloat` of the input when
that is a number and `0` otherwise (NaN, empty or nonnumeric input), so
these fields are never NaN — but they are not always finite: an input
parsing to Infinity is stored as Infinity. -/
theorem C9_handleChange_amended (prev : FormData) (value : String) (parsed : JsNum) :
    (handleChange prev .latitude value parsed).latitude = storeNumeric parsed ∧
    (handleChange prev .longitude value parsed).longitude = storeNumeric parsed ∧
    (handleChange prev .demand_weight value parsed).demand_weight = storeNumeric parsed ∧
    (parsed ≠ .nan → storeNumeric parsed = parsed) ∧
    (parsed = .nan → storeNumeric parsed = .fin 0) ∧
    (storeNumeric parsed).isNaN = false := by
  refine ⟨rfl, rfl, rfl, ?_, ?_, ?_⟩
  · intro h
    cases parsed with
    | nan => exact absurd rfl h
    | inf => rfl
    | negInf => rfl
    | fin q =>
      rcases eq_or_ne q 0 with hq | hq
      · subst hq; rfl
      · simp [storeNumeric, JsNum.truthy, hq]
  · intro h
    subst h
    rfl
  · cases parsed with
    | nan => rfl
    | inf => rfl
    | negInf => rfl
    | fin q =>
      rcases eq_or_ne q 0 with hq | hq
      · subst hq; rfl
      · simp [storeNumeric, JsNum.truthy, hq, JsNum.isNaN]

/-- C9 witness: a finite nonzero parse result is stored unchanged. -/
theorem C9_handleChange_amended_witness :
    storeNumeric (.fin 5) = .fin 5 :=
  (C9_handleChange_amended ⟨"", "", .fin 0, .fin 0, .fin 0⟩ "5" (.fin 5)).2.2.2.1
    (by simp)

/-- C10: after a successful `handleDeleteStop` for a stop id, the
busStops state contains no stop with that id, the routes state is the
empty list, and hence no rendered route references the deleted stop. -/
theorem C10_delete_clears (s : AppState) (id : String) :
    (∀ stop ∈ (handleDeleteStop s id).busStops, stop.id ≠ id) ∧
    (handleDeleteStop s id).routes = [] ∧
    (∀ r ∈ (handleDeleteStop s id).routes, ∀ sid ∈ r.stop_ids, sid ≠ id) := by
  refine ⟨?_, rfl, ?_⟩
  · intro stop hs
    have := (List.mem_filter.mp hs).2
    simpa using this
  · intro r hr
    simp [handleDeleteStop] at hr

/-- C10 witness: deleting id "b" from a two-stop state keeps the stop
with id "a", whose id indeed differs from "b". -/
theorem C10_delete_clears_witness :
    ("a" : String) ≠ "b" :=
  (C10_delete_clears ⟨[⟨"a", "s1", "", 0, 0, 1⟩, ⟨"b", "s2", "", 1, 1, 1⟩],
    [⟨0, ["a", "b"], []⟩], true⟩ "b").1 ⟨"a", "s1", "", 0, 0, 1⟩ (by decide)
